import Mathlib

/-
Verification of the quorum coordinator in `go/control.go` (glitch-grid).

The coordinator keeps a fixed list of vault addresses.  Reads fan out a GET
to every vault, tally the returned integers, and answer with the value held
by a strict majority (threshold `len(Vaults)/2 + 1`), or `-1` when there is
no such value.  Writes validate the body as a non-negative integer, check it
against the monotonic watermark `minValue`, fan out a POST to every vault,
and commit (update `minValue`) only when a majority of distinct vault URLs
acknowledged.

Concurrency in the source is a fan-out/join barrier per request: every vault
is contacted, all results are joined before the tally is inspected.  The
functional model below therefore takes the per-vault outcomes of one round
as an explicit argument (one entry per element of the vault list, in list
order) and computes the same tally the joined goroutines build.  Go's map
iteration order is arbitrary; the model scans the votes in list order, which
is harmless because at most one value can reach the majority threshold
(proved below).
-/

namespace GlitchGrid

/-- Numeric value of a decimal digit character. -/
def digitVal (c : Char) : Nat := c.toNat - 48

/-- Parse a non-empty all-digit character list as a natural number
(decimal, leading zeros allowed), as `strconv.ParseInt` does for the part
after the optional sign. -/
def digitsToNat : List Char → Option Nat
  | [] => none
  | cs =>
    if cs.all (fun c => c.isDigit) then
      some (cs.foldl (fun acc c => acc * 10 + digitVal c) 0)
    else
      none

/-- Smallest value of Go's 64-bit `int`. -/
def int64Min : Int := -(2 ^ 63)

/-- Largest value of Go's 64-bit `int`. -/
def int64Max : Int := 2 ^ 63 - 1

/-- Model of Go's `strconv.Atoi`: an optional sign followed by one or more
decimal digits; anything else (empty string, stray characters, whitespace)
is a parse error, as is a value outside the 64-bit `int` range (Go returns
`ErrRange` and the call sites only test `err != nil`). -/
def atoi (s : String) : Option Int :=
  let signed : Option Int :=
    match s.data with
    | '-' :: cs => (digitsToNat cs).map (fun n => -(n : Int))
    | '+' :: cs => (digitsToNat cs).map (fun n => (n : Int))
    | cs => (digitsToNat cs).map (fun n => (n : Int))
  signed.bind (fun n => if int64Min ≤ n ∧ n ≤ int64Max then some n else none)

/-- Outcome of one vault HTTP exchange that produced a response: the status
code, the body, and whether reading the body failed (`ioutil.ReadAll`
error). -/
structure VaultResp where
  status : Nat
  body : String
  readErr : Bool
deriving DecidableEq

/-- Per-vault read outcome of `getValueFromVault`: `none` models a network
error (`http.Get` returned an error, including timeouts).  The function
yields `some v` exactly when the vault contributes a vote for `v` to the
round's tally: the status must be exactly `http.StatusOK` (200), the body
must be readable, and `strconv.Atoi` must parse it (any sign).  Every other
outcome contributes nothing — the Go function returns without touching the
counts map. -/
def getValueFromVault (r : Option VaultResp) : Option Int :=
  match r with
  | none => none
  | some resp =>
    if resp.status ≠ 200 then none
    else if resp.readErr then none
    else atoi resp.body

/-- Multiset of votes collected by the read fan-out: one tally update per
vault-list entry whose `getValueFromVault` succeeded.  `counts[v]` in the Go
map equals `(votes rs).count v`. -/
def votes (rs : List (Option VaultResp)) : List Int :=
  rs.filterMap getValueFromVault

/-- Model of `ControlServer.hasMajority`: `count >= numVaults/2 + 1`, with
Go's flooring integer division. -/
def hasMajority (numVaults count : Nat) : Bool :=
  decide (numVaults / 2 + 1 ≤ count)

/-- Model of `ControlServer.getValueFromVaults`: `rs` holds one entry per
element of `s.Vaults` (so `rs.length = len(s.Vaults)`).  If no vault
contributed a vote the result is `-1`; otherwise the first value whose
count reaches the majority threshold is returned, and `-1` if none does.
(The Go code iterates the counts map in arbitrary order; scanning the vote
list instead is equivalent because the majority value is unique.) -/
def getValueFromVaults (rs : List (Option VaultResp)) : Int :=
  let vs := votes rs
  if vs.isEmpty then -1
  else
    match vs.find? (fun v => hasMajority rs.length (vs.count v)) with
    | some v => v
    | none => -1

/-- An HTTP response as written by the handlers: status code and body. -/
structure HttpOut where
  status : Nat
  body : String
deriving DecidableEq

/-- Model of `ControlServer.get`: 200 with the decimal value when
`getValueFromVaults` returned a non-negative result, 500 with body `-1`
otherwise. -/
def get (rs : List (Option VaultResp)) : HttpOut :=
  let result := getValueFromVaults rs
  if 0 ≤ result then ⟨200, toString result⟩ else ⟨500, "-1"⟩

/-- URL built for a vault address, as in `fmt.Sprintf` at both call sites. -/
def vaultURL (v : String) : String :=
  "http://" ++ v ++ "/"

/-- Model of `ControlServer.postValueToVaults`: `ok` holds one entry per
vault-list element saying whether that POST returned without error and with
status 200.  The Go code stores `resp[url] = true` for each success, so the
resulting set of keys is the deduplicated list of successful URLs. -/
def postValueToVaults (vaults : List String) (ok : List Bool) : List String :=
  (((vaults.zip ok).filter (fun p => p.2)).map (fun p => vaultURL p.1)).dedup

/-- Number of distinct vault URLs that acknowledged the write:
`len(resp)` in the Go code. -/
def ackCount (vaults : List String) (ok : List Bool) : Nat :=
  (postValueToVaults vaults ok).length

/-- Body written on both write outcomes:
`"Sent updates to %d/%d vaults"`. -/
def sentMsg (c n : Nat) : String :=
  "Sent updates to " ++ toString c ++ "/" ++ toString n ++ " vaults"

/-- Body written when the monotonic pre-check rejects:
`"Client would make value decrease from %d to %d"`. -/
def decreaseMsg (m n : Int) : String :=
  "Client would make value decrease from " ++ toString m ++ " to " ++ toString n

/-- Result of one `ControlServer.post` call: the HTTP status and body,
whether the vault fan-out (`postValueToVaults`) was performed at all, and
the value of `minValue` after the call. -/
structure PostResult where
  status : Nat
  body : String
  fanOut : Bool
  newMin : Int
deriving DecidableEq

/-- Model of `ControlServer.post` handling one request sequentially.
`body` is `none` when reading the request body failed (`io.ReadAll` error);
`ok` gives the per-vault write outcomes used if the fan-out happens.
Branches, in source order: unreadable body → 400, no fan-out; body that
`strconv.Atoi` rejects or that parses negative → 400, no fan-out
(`n < 0 || e != nil`); value below `minValue` → 400, no fan-out; otherwise
fan out, and commit `minValue := n` only when the acknowledgement count has
a majority (200), else 500 with `minValue` untouched. -/
def post (vaults : List String) (minValue : Int) (body : Option String)
    (ok : List Bool) : PostResult :=
  match body with
  | none => ⟨400, "Invalid or missing POST body", false, minValue⟩
  | some b =>
    match atoi b with
    | none => ⟨400, "Invalid or missing POST body", false, minValue⟩
    | some n =>
      if n < 0 then ⟨400, "Invalid or missing POST body", false, minValue⟩
      else if n < minValue then
        ⟨400, decreaseMsg minValue n, false, minValue⟩
      else
        let c := ackCount vaults ok
        if hasMajority vaults.length c then
          ⟨200, sentMsg c vaults.length, true, n⟩
        else
          ⟨500, sentMsg c vaults.length, true, minValue⟩

/-- Watermark set by `NewControlServer`: `s.minValue = 0`. -/
def initMinValue : Int := 0

/-- The `minValue` state after one sequentially handled write request. -/
def postStep (vaults : List String) (minValue : Int)
    (req : Option String × List Bool) : Int :=
  (post vaults minValue req.1 req.2).newMin

/-- The `minValue` state after a sequence of write requests handled one
after another, starting from `m`. -/
def runWrites (vaults : List String) (m : Int)
    (reqs : List (Option String × List Bool)) : Int :=
  reqs.foldl (postStep vaults) m

/-! Helper lemmas about the tally. -/

/-- Two distinct values cannot together account for more votes than there
are votes. -/
theorem count_pair_le (v w : Int) (h : v ≠ w) (l : List Int) :
    l.count v + l.count w ≤ l.length := by
  induction l with
  | nil => simp
  | cons a t ih =>
    simp only [List.count_cons, List.length_cons, beq_iff_eq]
    split_ifs <;> omega

/-- At most one value can reach the majority threshold among at most `N`
votes. -/
theorem majority_unique (N : Nat) (l : List Int) (hl : l.length ≤ N) (v w : Int)
    (hv : hasMajority N (l.count v) = true)
    (hw : hasMajority N (l.count w) = true) : v = w := by
  by_contra hne
  have h1 := count_pair_le v w hne l
  simp only [hasMajority, decide_eq_true_eq] at hv hw
  omega

/-- The vote list never has more entries than the vault list. -/
theorem votes_length_le (rs : List (Option VaultResp)) :
    (votes rs).length ≤ rs.length :=
  List.length_filterMap_le _ _

/-- When some value reaches the majority threshold, the read returns it. -/
theorem getValueFromVaults_of_majority (rs : List (Option VaultResp)) (v : Int)
    (hv : hasMajority rs.length ((votes rs).count v) = true) :
    getValueFromVaults rs = v := by
  have hlen := votes_length_le rs
  have hmem : v ∈ votes rs := by
    have hc : 0 < (votes rs).count v := by
      simp only [hasMajority, decide_eq_true_eq] at hv
      omega
    exact List.count_pos_iff.mp hc
  have hne : (votes rs).isEmpty = false := by
    cases hvs : votes rs with
    | nil => rw [hvs] at hmem; cases hmem
    | cons a t => rfl
  unfold getValueFromVaults
  simp only [hne, Bool.false_eq_true, if_false]
  cases hf : (votes rs).find? (fun u => hasMajority rs.length ((votes rs).count u)) with
  | none =>
    exfalso
    have := List.find?_eq_none.mp hf v hmem
    simp [hv] at this
  | some w =>
    have hpw : hasMajority rs.length ((votes rs).count w) = true := by
      simpa using List.find?_some hf
    exact majority_unique rs.length (votes rs) hlen w v hpw hv

/-- When no value reaches the majority threshold, the read returns `-1`. -/
theorem getValueFromVaults_of_no_majority (rs : List (Option VaultResp))
    (h : ∀ v : Int, hasMajority rs.length ((votes rs).count v) = false) :
    getValueFromVaults rs = -1 := by
  unfold getValueFromVaults
  cases hne : (votes rs).isEmpty with
  | true => simp [hne]
  | false =>
    simp only [hne, Bool.false_eq_true, if_false]
    have hf : (votes rs).find? (fun u => hasMajority rs.length ((votes rs).count u))
        = none := by
      rw [List.find?_eq_none]
      intro x _
      simp [h x]
    rw [hf]

/-! Claim theorems. -/

/-- C1: the majority threshold is `floor(N/2)+1` for the configured vault
count `N = rs.length`, and a read returns a value with that many votes in
the tally, returning the no-quorum outcome `-1` when no value reaches the
threshold. -/
theorem read_quorum_iff (rs : List (Option VaultResp)) :
    (∀ c : Nat, hasMajority rs.length c = true ↔ rs.length / 2 + 1 ≤ c)
    ∧ (∀ v : Int, hasMajority rs.length ((votes rs).count v) = true →
        getValueFromVaults rs = v)
    ∧ ((∀ v : Int, hasMajority rs.length ((votes rs).count v) = false) →
        getValueFromVaults rs = -1) := by
  refine ⟨fun c => ?_, fun v hv => getValueFromVaults_of_majority rs v hv,
    fun h => getValueFromVaults_of_no_majority rs h⟩
  simp [hasMajority]

/-- Vault round used by the C1 witness: five vaults reporting
`7, 7, 7, 9, 9`. -/
def roundMajority : List (Option VaultResp) :=
  [some ⟨200, "7", false⟩, some ⟨200, "7", false⟩, some ⟨200, "7", false⟩,
    some ⟨200, "9", false⟩, some ⟨200, "9", false⟩]

/-- Vault round used by the C1 witness: votes `7, 7, 9, 9` with one vault
unreachable. -/
def roundSplit : List (Option VaultResp) :=
  [some ⟨200, "7", false⟩, some ⟨200, "7", false⟩, none,
    some ⟨200, "9", false⟩, some ⟨200, "9", false⟩]

/-- Witness for C1: with five vaults reporting `7, 7, 7, 9, 9`, the
threshold is `3` and the read returns `7`; with votes `7, 7, 9, 9` and one
unreachable vault, no value reaches the threshold and the read returns
`-1`. -/
theorem read_quorum_iff_witness :
    getValueFromVaults roundMajority = 7 ∧ getValueFromVaults roundSplit = -1 := by
  constructor
  · exact (read_quorum_iff roundMajority).2.1 7 (by decide)
  · refine (read_quorum_iff roundSplit).2.2 (fun v => ?_)
    have hv : votes roundSplit = [7, 7, 9, 9] := by decide
    have hl : roundSplit.length = 5 := by decide
    rw [hv, hl]
    simp only [hasMajority, List.count_cons, List.count_nil, beq_iff_eq,
      decide_eq_false_iff_not, not_le]
    split_ifs <;> omega

/-- C7: each vault-list entry contributes at most one vote, so the tally
holds at most `N` votes, and at most one value can reach the majority
threshold: the consensus value, when it exists, is unique. -/
theorem consensus_unique (rs : List (Option VaultResp)) :
    (votes rs).length ≤ rs.length
    ∧ ∀ v w : Int, hasMajority rs.length ((votes rs).count v) = true →
        hasMajority rs.length ((votes rs).count w) = true → v = w := by
  refine ⟨votes_length_le rs, fun v w hv hw => ?_⟩
  exact majority_unique rs.length (votes rs) (votes_length_le rs) v w hv hw

/-- Witness for C7, at a tally where `7` holds a majority among five
vaults. -/
theorem consensus_unique_witness :
    ((votes [some ⟨200, "7", false⟩, some ⟨200, "7", false⟩,
        some ⟨200, "7", false⟩, some ⟨200, "9", false⟩, none]).length ≤ 5)
    ∧ (7 : Int) = 7 := by
  have h := consensus_unique [some ⟨200, "7", false⟩, some ⟨200, "7", false⟩,
    some ⟨200, "7", false⟩, some ⟨200, "9", false⟩, none]
  exact ⟨h.1, h.2 7 7 (by decide) (by decide)⟩

/-! Helper lemmas about the write path. -/

/-- Behaviour of `post` once the body has parsed to `n`: the remaining
branches of the handler, in source order. -/
theorem post_parsed (vaults : List String) (m : Int) (b : String) (n : Int)
    (ok : List Bool) (hp : atoi b = some n) :
    post vaults m (some b) ok =
      if n < 0 then ⟨400, "Invalid or missing POST body", false, m⟩
      else if n < m then ⟨400, decreaseMsg m n, false, m⟩
      else if hasMajority vaults.length (ackCount vaults ok) then
        ⟨200, sentMsg (ackCount vaults ok) vaults.length, true, n⟩
      else ⟨500, sentMsg (ackCount vaults ok) vaults.length, true, m⟩ := by
  simp only [post, hp]

/-- One sequentially handled write never decreases `minValue`. -/
theorem postStep_mono (vaults : List String) (m : Int)
    (req : Option String × List Bool) : m ≤ postStep vaults m req := by
  rcases req with ⟨body, ok⟩
  cases body with
  | none => simp [postStep, post]
  | some b =>
    cases hp : atoi b with
    | none => simp [postStep, post, hp]
    | some n =>
      simp only [postStep, post_parsed vaults m b n ok hp]
      split_ifs <;> dsimp only <;> omega

/-- C2: the watermark starts at `0` (`NewControlServer`) and, for write
requests handled one after another with no concurrent overlap, `minValue`
never decreases over the coordinator's lifetime. -/
theorem minValue_monotone :
    initMinValue = 0
    ∧ ∀ (vaults : List String) (reqs : List (Option String × List Bool)) (m : Int),
        m ≤ runWrites vaults m reqs := by
  refine ⟨rfl, fun vaults reqs => ?_⟩
  induction reqs with
  | nil => intro m; simp [runWrites]
  | cons r t ih =>
    intro m
    have h1 := postStep_mono vaults m r
    have h2 := ih (postStep vaults m r)
    have h3 : runWrites vaults m (r :: t)
        = runWrites vaults (postStep vaults m r) t := rfl
    omega

/-- C3: a write whose parsed value is strictly below the current watermark
is answered 400 and performs no vault fan-out, leaving `minValue`
unchanged. -/
theorem regressing_write_rejected (vaults : List String) (m : Int) (b : String)
    (ok : List Bool) (n : Int) (hp : atoi b = some n) (hlt : n < m) :
    (post vaults m (some b) ok).status = 400
    ∧ (post vaults m (some b) ok).fanOut = false
    ∧ (post vaults m (some b) ok).newMin = m := by
  rw [post_parsed vaults m b n ok hp]
  by_cases h0 : n < 0
  · rw [if_pos h0]; exact ⟨rfl, rfl, rfl⟩
  · rw [if_neg h0, if_pos hlt]; exact ⟨rfl, rfl, rfl⟩

/-- Witness for C3: watermark `5`, proposed value `3`. -/
theorem regressing_write_rejected_witness :
    (post ["a"] 5 (some "3") [true]).status = 400
    ∧ (post ["a"] 5 (some "3") [true]).fanOut = false
    ∧ (post ["a"] 5 (some "3") [true]).newMin = 5 :=
  regressing_write_rejected ["a"] 5 "3" [true] 3 (by decide) (by decide)

/-- C4: a write whose acknowledgement count misses the majority threshold
leaves `minValue` unchanged, whatever the request body was; `minValue` is
only assigned in the quorum branch. -/
theorem no_quorum_preserves_min (vaults : List String) (m : Int)
    (body : Option String) (ok : List Bool)
    (h : hasMajority vaults.length (ackCount vaults ok) = false) :
    (post vaults m body ok).newMin = m := by
  cases body with
  | none => rfl
  | some b =>
    cases hp : atoi b with
    | none => simp [post, hp]
    | some n =>
      rw [post_parsed vaults m b n ok hp]
      split_ifs with h0 h1 h2
      · rfl
      · rfl
      · rw [h] at h2; cases h2
      · rfl

/-- Witness for C4: three vaults, one acknowledgement, threshold two: the
watermark stays at `2` although the pre-check passed. -/
theorem no_quorum_preserves_min_witness :
    (post ["a", "b", "c"] 2 (some "9") [true, false, false]).newMin = 2 :=
  no_quorum_preserves_min ["a", "b", "c"] 2 (some "9") [true, false, false]
    (by decide)

/-- C8: a write whose body is unreadable, fails integer parsing, or parses
negative is answered 400 with no vault fan-out and an unchanged
watermark. -/
theorem invalid_body_rejected (vaults : List String) (m : Int)
    (body : Option String) (ok : List Bool)
    (h : body = none ∨ (∃ b, body = some b ∧ atoi b = none)
        ∨ (∃ b n, body = some b ∧ atoi b = some n ∧ n < 0)) :
    (post vaults m body ok).status = 400
    ∧ (post vaults m body ok).fanOut = false
    ∧ (post vaults m body ok).newMin = m := by
  rcases h with h | ⟨b, hb, hab⟩ | ⟨b, n, hb, hab, hn⟩
  · subst h; exact ⟨rfl, rfl, rfl⟩
  · subst hb; simp [post, hab]
  · subst hb
    rw [post_parsed vaults m b n ok hab, if_pos hn]
    exact ⟨rfl, rfl, rfl⟩

/-- Witness for C8: body `"abc"` is rejected without fan-out. -/
theorem invalid_body_rejected_witness :
    (post ["a", "b"] 0 (some "abc") [true, true]).status = 400
    ∧ (post ["a", "b"] 0 (some "abc") [true, true]).fanOut = false
    ∧ (post ["a", "b"] 0 (some "abc") [true, true]).newMin = 0 :=
  invalid_body_rejected ["a", "b"] 0 (some "abc") [true, true]
    (Or.inr (Or.inl ⟨"abc", rfl, by decide⟩))

/-- C9: after a successful write of `v`, repeating the same write passes
the strict pre-check (it is never answered 400), and when it reaches quorum
it succeeds again, leaving `minValue` equal to `v`, unchanged by the second
write. -/
theorem write_idempotent (vaults : List String) (m0 : Int) (b : String)
    (v : Int) (ok1 ok2 : List Bool) (hp : atoi b = some v)
    (h1 : (post vaults m0 (some b) ok1).status = 200) :
    (post vaults m0 (some b) ok1).newMin = v
    ∧ (post vaults v (some b) ok2).status ≠ 400
    ∧ (hasMajority vaults.length (ackCount vaults ok2) = true →
        (post vaults v (some b) ok2).status = 200
        ∧ (post vaults v (some b) ok2).newMin = v) := by
  have hv0 : ¬ v < 0 := by
    intro hneg
    rw [post_parsed vaults m0 b v ok1 hp, if_pos hneg] at h1
    simp at h1
  have hm0 : ¬ v < m0 := by
    intro hm
    rw [post_parsed vaults m0 b v ok1 hp, if_neg hv0, if_pos hm] at h1
    simp at h1
  have hq1 : hasMajority vaults.length (ackCount vaults ok1) = true := by
    by_contra hq
    rw [post_parsed vaults m0 b v ok1 hp, if_neg hv0, if_neg hm0,
      if_neg hq] at h1
    simp at h1
  refine ⟨?_, ?_, fun hq2 => ?_⟩
  · rw [post_parsed vaults m0 b v ok1 hp, if_neg hv0, if_neg hm0, if_pos hq1]
  · rw [post_parsed vaults v b v ok2 hp, if_neg hv0, if_neg (lt_irrefl v)]
    by_cases hq2 : hasMajority vaults.length (ackCount vaults ok2) = true
    · rw [if_pos hq2]; simp
    · rw [if_neg hq2]; simp
  · rw [post_parsed vaults v b v ok2 hp, if_neg hv0, if_neg (lt_irrefl v),
      if_pos hq2]
    exact ⟨rfl, rfl⟩

/-- Witness for C9: writing `5` twice against one vault that acknowledges
both rounds. -/
theorem write_idempotent_witness :
    (post ["a"] 0 (some "5") [true]).newMin = 5
    ∧ (post ["a"] 5 (some "5") [true]).status ≠ 400
    ∧ ((post ["a"] 5 (some "5") [true]).status = 200
        ∧ (post ["a"] 5 (some "5") [true]).newMin = 5) := by
  have h := write_idempotent ["a"] 0 "5" 5 [true] [true] (by decide) (by decide)
  exact ⟨h.1, h.2.1, h.2.2 (by decide)⟩

/-- Vault round in which every vault reports the negative value `-7`. -/
def roundNegative : List (Option VaultResp) :=
  [some ⟨200, "-7", false⟩, some ⟨200, "-7", false⟩, some ⟨200, "-7", false⟩]

/-- Counterexample to C5 as stated: with three vaults all reporting `-7`,
the value `-7` reaches the majority threshold (a quorum is reached), yet
the handler answers 500 with body `-1` instead of 200 with the consensus
value, because `get` only checks `result >= 0`. -/
theorem get_negative_consensus_cex :
    hasMajority roundNegative.length ((votes roundNegative).count (-7)) = true
    ∧ get roundNegative = ⟨500, "-1"⟩
    ∧ (get roundNegative).status ≠ 200 := by decide

/-- C5 (amended): `GET /` answers 200 with the decimal consensus value when
a quorum is reached on a non-negative value, and 500 with body `-1` when no
value reaches the threshold (including the no-vault-reachable case) or when
the quorum-consensus value is negative. -/
theorem get_characterization (rs : List (Option VaultResp)) :
    (∀ v : Int, 0 ≤ v → hasMajority rs.length ((votes rs).count v) = true →
        get rs = ⟨200, toString v⟩)
    ∧ (∀ v : Int, v < 0 → hasMajority rs.length ((votes rs).count v) = true →
        get rs = ⟨500, "-1"⟩)
    ∧ ((∀ v : Int, hasMajority rs.length ((votes rs).count v) = false) →
        get rs = ⟨500, "-1"⟩) := by
  refine ⟨fun v h0 hv => ?_, fun v hneg hv => ?_, fun h => ?_⟩
  · have hr := getValueFromVaults_of_majority rs v hv
    simp [get, hr, h0]
  · have hr := getValueFromVaults_of_majority rs v hv
    simp [get, hr, not_le.mpr hneg]
  · have hr := getValueFromVaults_of_no_majority rs h
    simp [get, hr]

/-- Witness for the amended C5: three vaults reporting `7` yield 200 with
body `7`. -/
theorem get_characterization_witness :
    get [some ⟨200, "7", false⟩, some ⟨200, "7", false⟩, some ⟨200, "7", false⟩]
      = ⟨200, "7"⟩ := by
  have h := (get_characterization [some ⟨200, "7", false⟩,
    some ⟨200, "7", false⟩, some ⟨200, "7", false⟩]).1 7 (by decide) (by decide)
  exact h.trans (by decide)

/-- Counterexample to C6 as stated: a 200 response whose body parses as the
negative integer `-5` is counted as a vote for `-5` (the code never checks
the sign), although the claim only admits non-negative parses; and a 201
response — a 2xx status — with the parsable body `5` is not counted,
although the claim admits any 2xx status. -/
theorem getValueFromVault_cex :
    getValueFromVault (some ⟨200, "-5", false⟩) = some (-5)
    ∧ ((-5 : Int) < 0)
    ∧ getValueFromVault (some ⟨201, "5", false⟩) = none := by decide

/-- C6 (amended): a vault's answer is counted in the round's tally exactly
when the call produced a response (no network error), the status is exactly
200 (not any 2xx), the body was readable, and `strconv.Atoi` parses the
body as an integer of either sign; any network error, non-200 status,
unreadable body, or unparsable body makes that vault contribute nothing (no
retry, no escalation). -/
theorem getValueFromVault_characterization :
    getValueFromVault none = none
    ∧ (∀ resp : VaultResp, resp.status ≠ 200 →
        getValueFromVault (some resp) = none)
    ∧ (∀ resp : VaultResp, resp.readErr = true →
        getValueFromVault (some resp) = none)
    ∧ (∀ resp : VaultResp, resp.status = 200 → resp.readErr = false →
        getValueFromVault (some resp) = atoi resp.body)
    ∧ (∀ (r : Option VaultResp) (rs : List (Option VaultResp)),
        getValueFromVault r = none → votes (r :: rs) = votes rs)
    ∧ (∀ (r : Option VaultResp) (v : Int) (rs : List (Option VaultResp)),
        getValueFromVault r = some v → votes (r :: rs) = v :: votes rs) := by
  refine ⟨rfl, fun resp hs => ?_, fun resp hr => ?_, fun resp hs hr => ?_,
    fun r rs h => ?_, fun r v rs h => ?_⟩
  · simp [getValueFromVault, hs]
  · simp [getValueFromVault, hr]
  · simp [getValueFromVault, hs, hr]
  · simp [votes, List.filterMap_cons, h]
  · simp [votes, List.filterMap_cons, h]

/-- Witness for the amended C6: a 200 response with body `12` is counted as
a vote for `12`, and a 500 response contributes nothing to the tally. -/
theorem getValueFromVault_characterization_witness :
    getValueFromVault (some ⟨200, "12", false⟩) = some 12
    ∧ votes [some ⟨500, "12", false⟩] = [] := by
  have h := getValueFromVault_characterization
  constructor
  · exact (h.2.2.2.1 ⟨200, "12", false⟩ rfl rfl).trans (by decide)
  · have h5 : getValueFromVault (some ⟨500, "12", false⟩) = none :=
      h.2.1 ⟨500, "12", false⟩ (by decide)
    exact h.2.2.2.2.1 (some ⟨500, "12", false⟩) [] h5

/-- C10: a duplicated vault address collapses to one write acknowledgement
(the ack set is keyed by vault URL, and duplicate addresses yield the same
URL), while the vault count used by the majority threshold and the reported
total counts every list entry; the read tally, by contrast, counts one vote
per list entry, so a duplicated address reporting value `v` contributes one
extra vote for `v`. -/
theorem duplicate_vault_accounting (a : String) (rest : List String)
    (ok : List Bool) :
    ackCount (a :: a :: rest) (true :: true :: ok) = ackCount (a :: rest) (true :: ok)
    ∧ (a :: a :: rest).length = (a :: rest).length + 1
    ∧ (∀ (r : Option VaultResp) (v : Int) (rs : List (Option VaultResp)),
        getValueFromVault r = some v →
        (votes (r :: r :: rs)).count v = (votes (r :: rs)).count v + 1) := by
  refine ⟨?_, rfl, fun r v rs h => ?_⟩
  · show ((vaultURL a :: vaultURL a ::
        (((rest.zip ok).filter (fun p => p.2)).map (fun p => vaultURL p.1))).dedup).length
      = ((vaultURL a ::
        (((rest.zip ok).filter (fun p => p.2)).map (fun p => vaultURL p.1))).dedup).length
    rw [List.dedup_cons_of_mem (List.mem_cons_self _ _)]
  · simp [votes, List.filterMap_cons, h, List.count_cons]

/-- Witness for C10: vault list `["a", "a"]` with both entries
acknowledging a write yields one acknowledgement against a threshold of
two, while both entries reporting `5` on a read yield two votes for `5`. -/
theorem duplicate_vault_accounting_witness :
    ackCount ["a", "a"] [true, true] = 1
    ∧ hasMajority 2 (ackCount ["a", "a"] [true, true]) = false
    ∧ (votes [some ⟨200, "5", false⟩, some ⟨200, "5", false⟩]).count 5 = 2 := by
  have h := duplicate_vault_accounting "a" [] []
  have h1 : ackCount ["a", "a"] [true, true] = 1 := h.1.trans (by decide)
  have h3 := h.2.2 (some ⟨200, "5", false⟩) 5 [] (by decide)
  exact ⟨h1, by rw [h1]; decide, h3.trans (by decide)⟩

end GlitchGrid
